import Mathlib

/-!
A shallow embedding of the WebSeif Seif-protocol engine (protocol.js,
elliptic.js, party.js) together with theorems checking the repository's
specification against it.

Bytes are modelled as lists of natural numbers (each produced byte is < 256).
JavaScript numbers that stay within the safe-integer range are modelled as
naturals, with explicit truncation (mod 2^32, mod 2^16) wherever a DataView
setter would truncate. Host primitives (WebCrypto, JSON.stringify) enter the
model as explicit function parameters.
-/

namespace WebSeif


abbrev Bytes := List Nat

/-! ## IV generation (protocol.js, function iv, lines 76-106) -/

/-- JavaScript's Number.MAX_SAFE_INTEGER, i.e. 2^53 - 1. -/
def maxSafeInteger : Nat := 2 ^ 53 - 1

/-- The four big-endian bytes written by DataView.setUint32: the value is
first converted to an unsigned 32-bit integer, as JavaScript ToUint32 does,
then written most significant byte first. -/
def setUint32 (value : Nat) : Bytes :=
  [value % 2 ^ 32 / 2 ^ 24, value % 2 ^ 32 / 2 ^ 16 % 2 ^ 8,
   value % 2 ^ 32 / 2 ^ 8 % 2 ^ 8, value % 2 ^ 32 % 2 ^ 8]

/-- The 12-byte buffer built by one call of iv_generator (protocol.js lines
94-102): setUint32(0, fixed_field), setUint32(4, floor(counter / 2^32)),
setUint32(8, counter % 2^32). -/
def iv_bytes (fixed_field counter : Nat) : Bytes :=
  setUint32 fixed_field ++ setUint32 (counter / 2 ^ 32) ++ setUint32 (counter % 2 ^ 32)

/-- One call of iv_generator (protocol.js lines 90-105). The closure state is
the counter; a call fails with "Counter exhausted." when the counter exceeds
Number.MAX_SAFE_INTEGER, and otherwise returns the IV together with the
incremented counter. -/
def iv_generator (fixed_field counter : Nat) : Except String (Bytes × Nat) :=
  if counter > maxSafeInteger then Except.error "Counter exhausted."
  else Except.ok (iv_bytes fixed_field counter, counter + 1)

/-- Iterating the generator: n calls starting from the fresh counter 0
(protocol.js line 89), collecting the produced IVs in order. -/
def iv_iterate (fixed_field : Nat) : Nat → Except String (List Bytes × Nat)
  | 0 => Except.ok ([], 0)
  | n + 1 =>
    match iv_iterate fixed_field n with
    | Except.error e => Except.error e
    | Except.ok (ivs, counter) =>
      match iv_generator fixed_field counter with
      | Except.error e => Except.error e
      | Except.ok (iv, counter_after) => Except.ok (ivs ++ [iv], counter_after)

/-- The IV layout described by the spec (section 4.2): a 32-bit big-endian
word holding the fixed field with its high 24 bits zero, followed by the
64-bit counter in big-endian. Stated for comparison with iv_bytes. -/
def iv_bytes_spec (fixed_field counter : Nat) : Bytes :=
  [0, 0, 0, fixed_field,
   counter / 2 ^ 56 % 2 ^ 8, counter / 2 ^ 48 % 2 ^ 8,
   counter / 2 ^ 40 % 2 ^ 8, counter / 2 ^ 32 % 2 ^ 8,
   counter / 2 ^ 24 % 2 ^ 8, counter / 2 ^ 16 % 2 ^ 8,
   counter / 2 ^ 8 % 2 ^ 8, counter % 2 ^ 8]

/-- connect (protocol.js line 909): the initiator's encryption IV generator
is iv(0), so initiator-originated records use fixed field 0. -/
def initiator_enc_fixed : Nat := 0

/-- listen (protocol.js line 827): the receiver's encryption IV generator is
iv(1), so receiver-originated records use fixed field 1. -/
def receiver_enc_fixed : Nat := 1

/-- The (key, IV) pairs of every encryption performed over the lifetime of a
connection in which the initiator encrypts n_init times and the receiver
n_recv times. Each side keeps a single encryption IV generator for the whole
connection — across both the handshake-key and session-key phases — so its
k-th encryption uses counter value k. The key used by each call is given by
an arbitrary assignment (key_of_init, key_of_recv), which covers the switch
from the handshake key to the session key at any point; keys are identified
by Nat ids. -/
def connection_key_iv_pairs (key_of_init key_of_recv : Nat → Nat)
    (n_init n_recv : Nat) : List (Nat × Bytes) :=
  (List.range n_init).map (fun k => (key_of_init k, iv_bytes initiator_enc_fixed k)) ++
    (List.range n_recv).map (fun k => (key_of_recv k, iv_bytes receiver_enc_fixed k))

/-! ## Record codec (protocol.js, make_record, lines 108-183) -/

/-- One entry of identifier.blobs (protocol.js lines 152-156). -/
structure BlobInfo where
  id : String
  type : String
  length : Nat
deriving DecidableEq, Repr

/-- A JavaScript value appearing as a field of a make_record message: absent
(undefined), a raw ArrayBuffer, or any other JSON-encodable value. The
host's JSON.stringify/TextEncoder serialisation is an external primitive, so
a JSON value is represented by the bytes it serialises to. -/
inductive JsVal
  | undef
  | arrayBuffer (bytes : Bytes)
  | jsonValue (serialization : Bytes)
deriving DecidableEq

/-- The two big-endian bytes written by DataView.setUint16 (the value is
first truncated to 16 bits, as the DataView setter does). -/
def setUint16 (value : Nat) : Bytes := [value % 2 ^ 16 / 2 ^ 8, value % 2 ^ 8]

/-- The plaintext buffer and blob type chosen for a message field
(protocol.js lines 139-145): a raw ArrayBuffer is transmitted as "Buffer",
anything else is serialised to JSON. The undef case is unreachable because
undefined fields are filtered out first (line 131). -/
def classify_blob : JsVal → Bytes × String
  | JsVal.arrayBuffer b => (b, "Buffer")
  | JsVal.jsonValue s => (s, "JSON")
  | JsVal.undef => ([], "JSON")

/-- make_record (protocol.js lines 108-183). The identifier object is
{type: identifier_type} and acquires a blobs array; encode_identifier models
encode_json applied to that object, and encrypt_buffer models the supplied
encryption function (the asynchronous encryption is flattened: the Promise
combinators only sequence the pure data flow modelled here). The
typeof-message check is omitted because messages are objects by type. -/
def make_record (identifier_type : String) (message : List (String × JsVal))
    (encode_identifier : String → List BlobInfo → Bytes)
    (encrypt_buffer : Bytes → Bytes) : Except String Bytes :=
  let present := message.filter fun field => decide (field.2 ≠ JsVal.undef)
  let entries := present.map fun field =>
    ((classify_blob field.2).1,
      BlobInfo.mk field.1 (classify_blob field.2).2 (classify_blob field.2).1.length)
  let blob_buffers := entries.map Prod.fst
  let blobs := entries.map Prod.snd
  let identifier_buffer := encode_identifier identifier_type blobs
  if identifier_buffer.length ≥ 2 ^ 16 then Except.error "Identifier too big."
  else
    let encrypted_buffers := (identifier_buffer :: blob_buffers).map encrypt_buffer
    Except.ok (setUint16 (encrypted_buffers.headD []).length ++ encrypted_buffers.flatten)

/-- The blob metadata the spec says building a record appends to
identifier.blobs (spec section 4.3, Building a record): for each
non-undefined message field in insertion order, its id, "Buffer" for a raw
byte buffer else "JSON", and the plaintext byte length. The undef case is
unreachable after the filter. -/
def record_blobs_spec (message : List (String × JsVal)) : List BlobInfo :=
  (message.filter fun field => decide (field.2 ≠ JsVal.undef)).map fun field =>
    match field.2 with
    | JsVal.arrayBuffer b => BlobInfo.mk field.1 "Buffer" b.length
    | JsVal.jsonValue s => BlobInfo.mk field.1 "JSON" s.length
    | JsVal.undef => BlobInfo.mk field.1 "JSON" 0

/-- The plaintext blob buffers of a record in insertion order, per the spec:
raw buffers as-is, JSON values by their UTF-8 serialisation. -/
def record_plaintexts_spec (message : List (String × JsVal)) : List Bytes :=
  (message.filter fun field => decide (field.2 ≠ JsVal.undef)).map fun field =>
    match field.2 with
    | JsVal.arrayBuffer b => b
    | JsVal.jsonValue s => s
    | JsVal.undef => []

/-- The wire bytes the spec prescribes for a built record: the 2-byte
big-endian length of the encrypted identifier, the encrypted identifier,
then each encrypted blob in order. -/
def record_bytes_spec (identifier_type : String) (message : List (String × JsVal))
    (encode_identifier : String → List BlobInfo → Bytes)
    (encrypt_buffer : Bytes → Bytes) : Bytes :=
  let enc_id :=
    encrypt_buffer (encode_identifier identifier_type (record_blobs_spec message))
  [enc_id.length / 2 ^ 8, enc_id.length % 2 ^ 8] ++ enc_id ++
    ((record_plaintexts_spec message).map encrypt_buffer).flatten

/-! ## Pending acknowledgements (protocol.js, send lines 538-548 and
receive lines 684-691) -/

/-- An event of the open phase that touches pending_acks: a send call
(whose queued task pushes a waiter, in call order because the outgoing queue
is FIFO), or an inbound Acknowledge record. -/
inductive AckEvent
  | send
  | acknowledge
deriving DecidableEq

/-- The pending_acks bookkeeping of a consumer. Waiters are numbered in
creation order (next_send is the next number); resolved lists the waiters
resolved so far, oldest first; destroyed holds the teardown reason once the
connection has been destroyed, after which nothing further happens. -/
structure AckState where
  pending_acks : List Nat
  resolved : List Nat
  next_send : Nat
  destroyed : Option String
deriving DecidableEq, Repr

def ack_init : AckState :=
  { pending_acks := [], resolved := [], next_send := 0, destroyed := none }

/-- One event: send (protocol.js lines 538-548) appends a waiter to
pending_acks; an inbound Acknowledge (lines 684-691) shifts the oldest
waiter and resolves it, or destroys the connection with "Unexpected
acknowledgement." when none is pending. -/
def ack_step (s : AckState) (e : AckEvent) : AckState :=
  if s.destroyed.isSome then s
  else
    match e with
    | AckEvent.send =>
      { s with pending_acks := s.pending_acks ++ [s.next_send],
               next_send := s.next_send + 1 }
    | AckEvent.acknowledge =>
      match s.pending_acks with
      | [] => { s with destroyed := some "Unexpected acknowledgement." }
      | oldest :: rest =>
        { s with pending_acks := rest, resolved := s.resolved ++ [oldest] }

def ack_run (events : List AckEvent) : AckState := events.foldl ack_step ack_init

/-! ## Teardown (protocol.js, destroy, lines 473-496) -/

/-- The three values of destroy's situation_option: undefined (there was a
problem), true (the connection is no longer required), false (the connection
has already been closed). -/
inductive Situation
  | problem
  | no_longer_required
  | already_closed
deriving DecidableEq, Repr

/-- The consumer state destroy touches: whether transport_connection is
still defined, and the pending Send waiters. -/
structure ConnState where
  transport_open : Bool
  pending_acks : List Nat
deriving DecidableEq, Repr

/-- The observable effects of one destroy call: which waiters were rejected
and with what reason, whether transport_connection.close() was invoked, and
the reason passed to on_close if it was invoked. -/
structure DestroyEffects where
  rejected : List (Nat × String)
  transport_close_called : Bool
  on_close_reason : Option String
deriving DecidableEq, Repr

def no_effects : DestroyEffects :=
  { rejected := [], transport_close_called := false, on_close_reason := none }

/-- destroy (protocol.js lines 473-496): when the transport connection is
still defined, reject every pending waiter with the reason, close the
transport unless situation_option is false, invoke on_close only when
situation_option is undefined, and clear transport_connection; otherwise do
nothing. -/
def destroy (s : ConnState) (reason : String) (situation : Situation) :
    ConnState × DestroyEffects :=
  if s.transport_open then
    ({ s with transport_open := false },
     { rejected := s.pending_acks.map fun w => (w, reason),
       transport_close_called :=
         match situation with
         | Situation.already_closed => false
         | _ => true,
       on_close_reason :=
         match situation with
         | Situation.problem => some reason
         | _ => none })
  else (s, no_effects)

/-! ## ECIES (elliptic.js, encrypt lines 1103-1163 and decrypt lines
1165-1210) -/

/-- elliptic.js: const keysize = 521 (NIST P-521). -/
def keysize : Nat := 521

/-- elliptic.js decrypt: a raw public key holds X and Y values plus an extra
byte, 2 * Math.ceil(keysize / 8) + 1 bytes. -/
def nr_raw_key_bytes : Nat := 2 * ((keysize + 7) / 8) + 1

/-- elliptic.js: const ecies_iv = new Uint8Array(12) — the constant all-zero
96-bit IV used for the one-shot derived key. -/
def ecies_iv : Bytes := List.replicate 12 0

/-- ECIES encryption (elliptic.js lines 1103-1163). The WebCrypto primitives
are parameters: derive_bits priv pub n models subtle.deriveBits with an ECDH
of priv against pub producing n bits, and aes_encrypt key iv plain models
AES-256-GCM encryption. The ephemeral keypair produced by generate_keypair
enters as the pair (ephemeral_public, ephemeral_private), ephemeral_public
being its raw export. The output is the raw ephemeral public key followed by
the AES ciphertext of the plaintext under the derived 256-bit key and
ecies_iv. -/
def ecies_encrypt (derive_bits : Bytes → Bytes → Nat → Bytes)
    (aes_encrypt : Bytes → Bytes → Bytes → Bytes)
    (ephemeral_public ephemeral_private plaintext public_key : Bytes) : Bytes :=
  let aes_key_buffer := derive_bits ephemeral_private public_key 256
  let encrypted_buffer := aes_encrypt aes_key_buffer ecies_iv plaintext
  ephemeral_public ++ encrypted_buffer

/-- ECIES decryption (elliptic.js lines 1165-1210): split off the first
nr_raw_key_bytes bytes as the ephemeral public key, derive the 256-bit
symmetric key against the private key, and decrypt the remainder with
ecies_iv. -/
def ecies_decrypt (derive_bits : Bytes → Bytes → Nat → Bytes)
    (aes_decrypt : Bytes → Bytes → Bytes → Bytes)
    (ciphertext private_key : Bytes) : Bytes :=
  let ephemeral_public := ciphertext.take nr_raw_key_bytes
  let aes_key_buffer := derive_bits private_key ephemeral_public 256
  aes_decrypt aes_key_buffer ecies_iv (ciphertext.drop nr_raw_key_bytes)

/-! ## Redirects (protocol.js, on_redirect lines 948-982; party.js connect
on_close wrapper lines 97-121) -/

/-- Events observable from the initiator while a redirect is processed. The
waiter_rejected events come from consumer.transport_closed("Redirected.")
rejecting the pending Send waiters; on_close and on_open are the caller's
callbacks; hello_sent is the Hello record of the new handshake going out. -/
inductive RedirectEvent
  | transport_close
  | waiter_rejected (w : Nat)
  | on_close (reason : Option String)
  | transport_connect (address : String)
  | hello_sent
  | on_open
deriving DecidableEq, Repr

/-- The parameters of connect that a redirect updates (protocol.js lines
974-981): the remote public key is replaced by the redirect target's key,
the connection_info by the redirect context, and the transport reconnects to
the redirect address. Keys and JSON values are identified by Nat ids. -/
structure ConnectParams where
  address : String
  remote_public_key : Nat
  connection_info : Option Nat
deriving DecidableEq, Repr

/-- party.js connect's on_close wrapper (lines 97-121): when redirect
arguments are present (public_key defined), the reason passed on to the
caller's on_close becomes "redirected". -/
def party_close_reason (reason : Option String) (redirect_key : Option Nat) :
    Option String :=
  if redirect_key.isSome then some "redirected" else reason

/-- on_redirect (protocol.js lines 948-982), as run by the initiator when a
Redirect record arrives: close the transport, tear the consumer down with
"Redirected." (rejecting every pending waiter, invoking no on_close of its
own), invoke the caller's on_close — through the party wrapper the reason is
"redirected" — then update the parameters and reconnect to the redirect
target. Returns the updated parameters and the events emitted, in program
order. -/
def on_redirect (pending_acks : List Nat) (address : String) (public_key : Nat)
    (redirect_context : Option Nat) : ConnectParams × List RedirectEvent :=
  ({ address := address, remote_public_key := public_key,
     connection_info := redirect_context },
   RedirectEvent.transport_close ::
     pending_acks.map RedirectEvent.waiter_rejected ++
       [RedirectEvent.on_close (party_close_reason none (some public_key)),
        RedirectEvent.transport_connect address])

/-- The events of the new connection established against the redirect
target: on_transport_open sends the Hello record (protocol.js lines
904-946), and on_open fires once the AuthHello is processed. Under the
single-threaded scheduling model these callbacks run only after on_redirect
has returned, so the full trace of a redirect is the on_redirect events
followed by these. -/
def new_connection_events : List RedirectEvent :=
  [RedirectEvent.hello_sent, RedirectEvent.on_open]

/-- The full event trace the initiator observes for a redirect. -/
def redirect_trace (pending_acks : List Nat) (address : String) (public_key : Nat)
    (redirect_context : Option Nat) : List RedirectEvent :=
  (on_redirect pending_acks address public_key redirect_context).2 ++
    new_connection_events

/-! ## The consumer's parse loop (protocol.js, make_consumer lines 419-807) -/

/-- A parsed record identifier: its type string and its blob metadata. -/
structure Identifier where
  type : String
  blobs : List BlobInfo
deriving DecidableEq, Repr

/-- The incoming-side state of a consumer (protocol.js lines 436-446):
whether transport_connection is still defined, the busy flag, the in-buffer,
the parse state (identifier_length and identifier once read), the blob
buffers gathered so far, and the two symmetric keys (Nat ids; none when
unset). -/
structure ConsumerState where
  transport_open : Bool
  busy : Bool
  buffer : Bytes
  identifier : Option Identifier
  identifier_length : Option Nat
  blob_buffers : List Bytes
  session_key : Option Nat
  handshake_key : Option Nat
deriving DecidableEq, Repr

/-- How one consume invocation returns: waiting (for more bytes, or
immediately because the consumer is busy or the transport is gone), having
started an asynchronous decryption of ciphertext taken from the buffer
(busy is then set until the decryption completes), handing a complete record
to receive, or destroying the connection on a JSON parse failure. -/
inductive ConsumeOutcome
  | waiting
  | decrypting (ciphertext : Bytes)
  | record_ready (identifier : Identifier) (blob_buffers : List Bytes)
  | failed
deriving DecidableEq, Repr

/-- getUint16(0) over the two bytes returned by take(2) (protocol.js
line 721). -/
def getUint16 (bytes : Bytes) : Nat :=
  match bytes with
  | a :: b :: _ => a * 2 ^ 8 + b
  | _ => 0

/-- protocol.js lines 713-722: when the identifier length has not been read
yet and two bytes are available, take them and record the length; otherwise
leave the state alone. -/
def read_identifier_length (s : ConsumerState) : ConsumerState :=
  if s.identifier_length = none then
    if s.buffer.length < 2 then s
    else { s with identifier_length := some (getUint16 (s.buffer.take 2)),
                  buffer := s.buffer.drop 2 }
  else s

/-- consume (protocol.js lines 699-793). decode_id models decode_json on an
identifier buffer (none models a thrown parse exception); the recursion of
the source is driven by a fuel parameter (each recursive call of the source
consumes buffered bytes or fills a parse field, so any fuel of at least
buffer length + blobs + 2 reproduces it; the claims hold for every fuel).
Asynchronous decryption is represented by the decrypting outcome: the
consumer sets busy, removes the ciphertext from the buffer and returns; the
completion handlers below resume. -/
def consume (decode_id : Bytes → Option Identifier) :
    Nat → ConsumerState → ConsumerState × ConsumeOutcome
  | 0, s => (s, ConsumeOutcome.waiting)
  | fuel + 1, s =>
    if s.transport_open = false ∨ s.busy = true then (s, ConsumeOutcome.waiting)
    else
      match s.identifier with
      | none =>
        let s1 := read_identifier_length s
        match s1.identifier_length with
        | none => (s1, ConsumeOutcome.waiting)
        | some identifier_length =>
          if s1.buffer.length < identifier_length then (s1, ConsumeOutcome.waiting)
          else if s1.session_key = none ∧ s1.handshake_key = none then
            match decode_id (s1.buffer.take identifier_length) with
            | none => (s1, ConsumeOutcome.failed)
            | some identifier =>
              consume decode_id fuel
                { s1 with identifier := some identifier,
                          buffer := s1.buffer.drop identifier_length }
          else
            ({ s1 with busy := true, buffer := s1.buffer.drop identifier_length },
             ConsumeOutcome.decrypting (s1.buffer.take identifier_length))
      | some identifier =>
        if h : s.blob_buffers.length < identifier.blobs.length then
          let blob := identifier.blobs.get ⟨s.blob_buffers.length, h⟩
          if s.session_key = none ∧ s.handshake_key = none then
            if s.buffer.length < blob.length then (s, ConsumeOutcome.waiting)
            else
              consume decode_id fuel
                { s with blob_buffers := s.blob_buffers ++ [s.buffer.take blob.length],
                         buffer := s.buffer.drop blob.length }
          else
            if s.buffer.length < blob.length + 16 then (s, ConsumeOutcome.waiting)
            else
              ({ s with busy := true, buffer := s.buffer.drop (blob.length + 16) },
               ConsumeOutcome.decrypting (s.buffer.take (blob.length + 16)))
        else (s, ConsumeOutcome.record_ready identifier s.blob_buffers)

/-- Completion of an identifier decryption (protocol.js lines 741-749):
parse the plaintext, clear busy and resume consume; a parse failure goes to
destroy with busy still set. -/
def on_identifier_decrypted (decode_id : Bytes → Option Identifier) (fuel : Nat)
    (s : ConsumerState) (identifier_buffer : Bytes) :
    ConsumerState × ConsumeOutcome :=
  match decode_id identifier_buffer with
  | none => (s, ConsumeOutcome.failed)
  | some identifier =>
    consume decode_id fuel { s with identifier := some identifier, busy := false }

/-- Completion of a blob decryption (protocol.js lines 778-786): stash the
plaintext, clear busy and resume consume. -/
def on_blob_decrypted (decode_id : Bytes → Option Identifier) (fuel : Nat)
    (s : ConsumerState) (decrypted_buffer : Bytes) :
    ConsumerState × ConsumeOutcome :=
  consume decode_id fuel
    { s with blob_buffers := s.blob_buffers ++ [decrypted_buffer], busy := false }

/-! ## Handshake dispatch (protocol.js, receive, lines 568-697) -/

/-- The handler receive selects for a parsed record. -/
inductive ReceiveAction
  | respond_auth_hello
  | process_auth_hello
  | handle_redirect
  | handle_send
  | handle_acknowledge
  | handle_status_send
  | destroy_unrecognized
deriving DecidableEq, Repr

/-- The dispatch structure of receive (protocol.js lines 590-696): while the
session key is unset, a consumer with no handshake key responds to the
record as a Hello with an AuthHello (lines 592-632), and a consumer holding
a handshake key processes it as an AuthHello (lines 634-656) — both paths
return before the identifier's type is consulted. Only once the session key
is set does the type field select the handler (lines 660-696), with
unrecognized types destroying the connection. -/
def receive_dispatch (session_key handshake_key : Option Nat)
    (identifier_type : String) : ReceiveAction :=
  if session_key = none then
    if handshake_key = none then ReceiveAction.respond_auth_hello
    else ReceiveAction.process_auth_hello
  else if identifier_type = "Redirect" then ReceiveAction.handle_redirect
  else if identifier_type = "Send" then ReceiveAction.handle_send
  else if identifier_type = "Acknowledge" then ReceiveAction.handle_acknowledge
  else if identifier_type = "StatusSend" then ReceiveAction.handle_status_send
  else ReceiveAction.destroy_unrecognized

lemma iv_bytes_eq_spec (fixed_field counter : Nat)
    (hf : fixed_field < 2 ^ 8) (hc : counter < 2 ^ 64) :
    iv_bytes fixed_field counter = iv_bytes_spec fixed_field counter := by
  simp only [iv_bytes, iv_bytes_spec, setUint32, List.cons_append, List.nil_append,
    List.cons.injEq, and_true]
  refine ⟨?_, ?_, ?_, ?_, ?_, ?_, ?_, ?_, ?_, ?_, ?_, ?_⟩ <;> omega

lemma setUint32_inj {a b : Nat} (ha : a < 2 ^ 32) (hb : b < 2 ^ 32)
    (h : setUint32 a = setUint32 b) : a = b := by
  simp only [setUint32, List.cons.injEq, and_true] at h
  omega

/-- iv_bytes is injective in (fixed field, counter) on the relevant ranges. -/
lemma iv_bytes_inj {f f' n n' : Nat} (hf : f < 2 ^ 32) (hf' : f' < 2 ^ 32)
    (hn : n < 2 ^ 64) (hn' : n' < 2 ^ 64)
    (h : iv_bytes f n = iv_bytes f' n') : f = f' ∧ n = n' := by
  simp only [iv_bytes, setUint32, List.cons_append, List.nil_append,
    List.cons.injEq, and_true] at h
  obtain ⟨h1, h2, h3, h4, h5, h6, h7, h8, h9, h10, h11, h12⟩ := h
  constructor <;> omega

/-- Helper: iterating the generator n times from 0 succeeds as long as every
counter used (0 .. n-1) is within the safe bound, yields the n IVs for
counters 0 .. n-1 in order, and leaves the counter at n. -/
lemma iv_iterate_ok (fixed_field : Nat) :
    ∀ n, n ≤ maxSafeInteger + 1 →
      iv_iterate fixed_field n =
        Except.ok ((List.range n).map (iv_bytes fixed_field), n) := by
  intro n
  induction n with
  | zero => intro _; simp [iv_iterate]
  | succ n ih =>
    intro h
    have hn : n ≤ maxSafeInteger + 1 := Nat.le_of_succ_le h
    rw [iv_iterate, ih hn]
    have hcall : iv_generator fixed_field n =
        Except.ok (iv_bytes fixed_field n, n + 1) := by
      unfold iv_generator
      rw [if_neg (by omega)]
    simp [hcall, List.range_succ]

/-- Claim C2: for every fixed field f in {0, 1} and every call number n
starting at 0, the IV generator returns on its n-th call a 12-byte buffer
equal to the 32-bit big-endian encoding of f (high 24 bits zero) followed by
the 64-bit big-endian encoding of n, increments its counter by one, and
fails with the exhaustion error exactly when the counter has exceeded
2^53 - 1. (The n-th call sees counter value n: the first conjunct shows that
n successful calls from a fresh generator leave the counter at n.) -/
theorem iv_generator_correct (f n : Nat) (hf : f < 2) (hn : n ≤ maxSafeInteger) :
    iv_iterate f n = Except.ok ((List.range n).map (iv_bytes_spec f), n) ∧
    iv_generator f n = Except.ok (iv_bytes_spec f n, n + 1) ∧
    (iv_bytes_spec f n).length = 12 ∧
    (∀ counter, iv_generator f counter = Except.error "Counter exhausted." ↔
      counter > maxSafeInteger) := by
  have hf8 : f < 2 ^ 8 := by omega
  have hn64 : n < 2 ^ 64 := by
    have : maxSafeInteger < 2 ^ 64 := by norm_num [maxSafeInteger]
    omega
  refine ⟨?_, ?_, ?_, ?_⟩
  · rw [iv_iterate_ok f n (by omega)]
    congr 1
    refine congrArg (fun l => (l, n)) ?_
    apply List.map_congr_left
    intro k hk
    have hk64 : k < 2 ^ 64 := by
      have := List.mem_range.mp hk
      omega
    exact iv_bytes_eq_spec f k hf8 hk64
  · unfold iv_generator
    rw [if_neg (by omega), iv_bytes_eq_spec f n hf8 hn64]
  · simp [iv_bytes_spec]
  · intro counter
    unfold iv_generator
    constructor
    · intro h
      by_contra hgt
      rw [if_neg hgt] at h
      exact Except.noConfusion h
    · intro h
      rw [if_pos h]

/-- Witness for iv_generator_correct at f = 1, n = 3. -/
theorem iv_generator_correct_witness :
    (1 : Nat) < 2 ∧ (3 : Nat) ≤ maxSafeInteger ∧
      iv_generator 1 3 = Except.ok ([0, 0, 0, 1, 0, 0, 0, 0, 0, 0, 0, 3], 4) := by
  refine ⟨by norm_num, by norm_num [maxSafeInteger], ?_⟩
  have h := (iv_generator_correct 1 3 (by norm_num)
    (by norm_num [maxSafeInteger])).2.1
  simpa [iv_bytes_spec] using h

/-- Claim C1: no two encryptions performed under the same AES-GCM key over
the lifetime of a connection use the same IV. The initiator encrypts with
fixed field 0 and the receiver with fixed field 1, each side's counter is
strictly monotonic across the handshake-key and session-key phases (its k-th
encryption uses counter k), so the list of all (key, IV) pairs — under any
assignment of handshake or session keys to calls — has no duplicate. -/
theorem iv_uniqueness (key_of_init key_of_recv : Nat → Nat) (n_init n_recv : Nat)
    (hi : n_init ≤ 2 ^ 53) (hr : n_recv ≤ 2 ^ 53) :
    (connection_key_iv_pairs key_of_init key_of_recv n_init n_recv).Nodup := by
  apply List.Nodup.of_map Prod.snd
  rw [connection_key_iv_pairs, List.map_append, List.map_map, List.map_map]
  rw [List.nodup_append]
  have hfix0 : initiator_enc_fixed < 2 ^ 32 := by norm_num [initiator_enc_fixed]
  have hfix1 : receiver_enc_fixed < 2 ^ 32 := by norm_num [receiver_enc_fixed]
  refine ⟨?_, ?_, ?_⟩
  · apply List.Nodup.map_on ?_ (List.nodup_range n_init)
    intro x hx y hy hxy
    simp only [Function.comp_apply] at hxy
    have hx64 : x < 2 ^ 64 := by have := List.mem_range.mp hx; omega
    have hy64 : y < 2 ^ 64 := by have := List.mem_range.mp hy; omega
    exact (iv_bytes_inj hfix0 hfix0 hx64 hy64 hxy).2
  · apply List.Nodup.map_on ?_ (List.nodup_range n_recv)
    intro x hx y hy hxy
    simp only [Function.comp_apply] at hxy
    have hx64 : x < 2 ^ 64 := by have := List.mem_range.mp hx; omega
    have hy64 : y < 2 ^ 64 := by have := List.mem_range.mp hy; omega
    exact (iv_bytes_inj hfix1 hfix1 hx64 hy64 hxy).2
  · rw [List.disjoint_left]
    intro a ha hb
    simp only [List.mem_map, Function.comp_apply, List.mem_range] at ha hb
    obtain ⟨x, hx, hxa⟩ := ha
    obtain ⟨y, hy, hya⟩ := hb
    have hx64 : x < 2 ^ 64 := by omega
    have hy64 : y < 2 ^ 64 := by omega
    have := (iv_bytes_inj hfix0 hfix1 hx64 hy64 (hxa.trans hya.symm)).1
    simp [initiator_enc_fixed, receiver_enc_fixed] at this

/-- Witness for iv_uniqueness: two encryptions on each side, handshake key
(id 0) for the first call and session key (id 1) afterwards. -/
theorem iv_uniqueness_witness :
    (2 : Nat) ≤ 2 ^ 53 ∧
      (connection_key_iv_pairs (fun k => min k 1) (fun k => min k 1) 2 2).Nodup :=
  ⟨by norm_num,
   iv_uniqueness (fun k => min k 1) (fun k => min k 1) 2 2
     (by norm_num) (by norm_num)⟩

/-- Helper: the blobs list make_record builds is the one the spec describes. -/
lemma make_record_blobs_eq (message : List (String × JsVal)) :
    ((message.filter fun field => decide (field.2 ≠ JsVal.undef)).map fun field =>
      ((classify_blob field.2).1,
        BlobInfo.mk field.1 (classify_blob field.2).2
          (classify_blob field.2).1.length)).map Prod.snd =
      record_blobs_spec message := by
  rw [record_blobs_spec, List.map_map]
  apply List.map_congr_left
  intro field _
  obtain ⟨i, v⟩ := field
  cases v <;> simp [classify_blob]

/-- Helper: the plaintext blob buffers make_record builds are the ones the
spec describes. -/
lemma make_record_plaintexts_eq (message : List (String × JsVal)) :
    ((message.filter fun field => decide (field.2 ≠ JsVal.undef)).map fun field =>
      ((classify_blob field.2).1,
        BlobInfo.mk field.1 (classify_blob field.2).2
          (classify_blob field.2).1.length)).map Prod.fst =
      record_plaintexts_spec message := by
  rw [record_plaintexts_spec, List.map_map]
  apply List.map_congr_left
  intro field _
  obtain ⟨i, v⟩ := field
  cases v <;> simp [classify_blob]

/-- Claim C3: building a record includes exactly the message fields whose
value is not undefined, classifies a field as "Buffer" when its value is a
raw ArrayBuffer and as "JSON" otherwise, appends one (id, type, plaintext
length) entry per field to identifier.blobs in insertion order, and returns
the 2-byte big-endian length of the encrypted identifier, the encrypted
identifier, then each encrypted blob in order — i.e. make_record refines the
spec's record_bytes_spec whenever the length fields fit. -/
theorem make_record_correct (identifier_type : String)
    (message : List (String × JsVal))
    (encode_identifier : String → List BlobInfo → Bytes)
    (encrypt_buffer : Bytes → Bytes)
    (h_id : (encode_identifier identifier_type (record_blobs_spec message)).length
      < 2 ^ 16)
    (h_enc : (encrypt_buffer (encode_identifier identifier_type
      (record_blobs_spec message))).length < 2 ^ 16) :
    make_record identifier_type message encode_identifier encrypt_buffer =
      Except.ok (record_bytes_spec identifier_type message encode_identifier
        encrypt_buffer) := by
  simp only [make_record, make_record_blobs_eq, make_record_plaintexts_eq]
  rw [if_neg (by omega)]
  simp only [record_bytes_spec, List.map_cons, List.headD_cons, List.flatten_cons,
    setUint16]
  have hmod : (encrypt_buffer (encode_identifier identifier_type
      (record_blobs_spec message))).length % 2 ^ 16 =
      (encrypt_buffer (encode_identifier identifier_type
        (record_blobs_spec message))).length := Nat.mod_eq_of_lt h_enc
  rw [hmod]
  simp [List.append_assoc]

/-- Witness for make_record_correct: a three-field message with a JSON
value, an undefined field and a raw buffer, a one-byte identifier encoding
and an encryption that appends one byte. -/
theorem make_record_correct_witness :
    make_record "Send"
      [("alpha", JsVal.jsonValue [49]), ("beta", JsVal.undef),
       ("gamma", JsVal.arrayBuffer [1, 2, 3])]
      (fun _ blobs => [blobs.length]) (fun b => b ++ [9]) =
      Except.ok (record_bytes_spec "Send"
        [("alpha", JsVal.jsonValue [49]), ("beta", JsVal.undef),
         ("gamma", JsVal.arrayBuffer [1, 2, 3])]
        (fun _ blobs => [blobs.length]) (fun b => b ++ [9])) :=
  make_record_correct _ _ _ _ (by decide) (by decide)

/-- Claim C4: building a record with a serialised identifier of exactly
65535 bytes succeeds, and one whose serialised identifier reaches 65536
bytes fails with "Identifier too big.". The failure branch is stated for an
arbitrary encrypt_buffer and its outcome does not mention it: the size check
precedes any encryption. -/
theorem identifier_size_boundary (identifier_type : String)
    (message : List (String × JsVal))
    (encode_identifier : String → List BlobInfo → Bytes)
    (encrypt_buffer : Bytes → Bytes) :
    ((encode_identifier identifier_type (record_blobs_spec message)).length = 65535 →
      ∃ record, make_record identifier_type message encode_identifier encrypt_buffer =
        Except.ok record) ∧
    ((encode_identifier identifier_type (record_blobs_spec message)).length ≥ 65536 →
      make_record identifier_type message encode_identifier encrypt_buffer =
        Except.error "Identifier too big.") := by
  constructor
  · intro h65535
    simp only [make_record, make_record_blobs_eq]
    rw [if_neg (by omega)]
    exact ⟨_, rfl⟩
  · intro h65536
    simp only [make_record, make_record_blobs_eq]
    rw [if_pos (by omega)]

/-- Witness for identifier_size_boundary at identifier encodings of exactly
65535 and 65536 bytes. -/
theorem identifier_size_boundary_witness :
    ((List.replicate 65535 (0 : Nat)).length = 65535 ∧
      ∃ record, make_record "Send" [] (fun _ _ => List.replicate 65535 0)
        (fun b => b) = Except.ok record) ∧
    ((List.replicate 65536 (0 : Nat)).length ≥ 65536 ∧
      make_record "Send" [] (fun _ _ => List.replicate 65536 0) (fun b => b) =
        Except.error "Identifier too big.") := by
  constructor
  · refine ⟨List.length_replicate 65535 0, ?_⟩
    exact (identifier_size_boundary "Send" []
      (fun _ _ => List.replicate 65535 0) (fun b => b)).1
      (List.length_replicate 65535 0)
  · refine ⟨le_of_eq (List.length_replicate 65536 0).symm, ?_⟩
    exact (identifier_size_boundary "Send" []
      (fun _ _ => List.replicate 65536 0) (fun b => b)).2
      (le_of_eq (List.length_replicate 65536 0).symm)

/-- Helper invariant: on a live connection the resolved waiters followed by
the still-pending waiters are exactly waiters 0 .. next_send - 1 in creation
order. -/
lemma ack_invariant (events : List AckEvent) :
    ∀ s : AckState,
      (s.destroyed = none → s.resolved ++ s.pending_acks = List.range s.next_send) →
      ((events.foldl ack_step s).destroyed = none →
        (events.foldl ack_step s).resolved ++ (events.foldl ack_step s).pending_acks =
          List.range (events.foldl ack_step s).next_send) := by
  induction events with
  | nil => intro s hs; exact hs
  | cons e rest ih =>
    intro s hs
    apply ih
    intro hdead
    unfold ack_step at hdead ⊢
    by_cases hd : s.destroyed.isSome
    · rw [if_pos hd] at hdead ⊢
      exact hs hdead
    · rw [if_neg hd] at hdead ⊢
      have hnone : s.destroyed = none := Option.not_isSome_iff_eq_none.mp hd
      cases e with
      | send =>
        simp only at hdead ⊢
        rw [← List.append_assoc, hs hnone, List.range_succ]
      | acknowledge =>
        cases hp : s.pending_acks with
        | nil =>
          simp only [hp] at hdead
          exact Option.noConfusion hdead
        | cons oldest rest2 =>
          simp only [hp] at hdead ⊢
          rw [List.append_assoc, List.singleton_append, ← hp, hs hnone]

/-- Claim C5: an inbound Acknowledge processed in the open phase resolves
the oldest pending Send waiter and only that one when pending_acks is
non-empty, and destroys the connection with the unexpected-acknowledgement
violation when pending_acks is empty; over any event sequence the waiters
resolve in FIFO order (the resolved list followed by the pending list is
always the creation order). -/
theorem acknowledge_fifo (s : AckState) (events : List AckEvent) :
    (s.destroyed = none → ∀ oldest rest, s.pending_acks = oldest :: rest →
      ack_step s AckEvent.acknowledge =
        { s with pending_acks := rest, resolved := s.resolved ++ [oldest] }) ∧
    (s.destroyed = none → s.pending_acks = [] →
      ack_step s AckEvent.acknowledge =
        { s with destroyed := some "Unexpected acknowledgement." }) ∧
    ((ack_run events).destroyed = none →
      (ack_run events).resolved ++ (ack_run events).pending_acks =
        List.range (ack_run events).next_send) := by
  refine ⟨?_, ?_, ?_⟩
  · intro hnone oldest rest hp
    unfold ack_step
    rw [if_neg (by simp [hnone])]
    simp only [hp]
  · intro hnone hp
    unfold ack_step
    rw [if_neg (by simp [hnone])]
    simp only [hp]
  · exact ack_invariant events ack_init (by intro _; simp [ack_init])

/-- Witness for acknowledge_fifo: two sends then one acknowledgement; the
single-step conjuncts are applied at a state with one pending waiter. -/
theorem acknowledge_fifo_witness :
    (ack_step ⟨[7], [], 8, none⟩ AckEvent.acknowledge = ⟨[], [7], 8, none⟩) ∧
    (ack_step ⟨[], [], 0, none⟩ AckEvent.acknowledge =
      ⟨[], [], 0, some "Unexpected acknowledgement."⟩) ∧
    ((ack_run [AckEvent.send, AckEvent.send, AckEvent.acknowledge]).resolved ++
        (ack_run [AckEvent.send, AckEvent.send,
          AckEvent.acknowledge]).pending_acks =
      List.range (ack_run [AckEvent.send, AckEvent.send,
        AckEvent.acknowledge]).next_send) := by
  refine ⟨?_, ?_, ?_⟩
  · exact (acknowledge_fifo ⟨[7], [], 8, none⟩ []).1 rfl 7 [] rfl
  · exact (acknowledge_fifo ⟨[], [], 0, none⟩ []).2.1 rfl rfl
  · exact (acknowledge_fifo ack_init
      [AckEvent.send, AckEvent.send, AckEvent.acknowledge]).2.2 (by decide)

/-- Claim C6: on a live connection destroy rejects every pending waiter with
the teardown reason in all three modes, closes the transport unless the mode
is transport-already-closed, invokes on_close (with the reason) only in
problem mode; and it is idempotent — after any call, a second call with any
arguments leaves the state unchanged and produces no effect, hence invokes
no callback. -/
theorem destroy_correct (s : ConnState) (reason : String) (situation : Situation) :
    (s.transport_open = true →
      ((destroy s reason situation).2.rejected =
          s.pending_acks.map (fun w => (w, reason)) ∧
        ((destroy s reason situation).2.transport_close_called = true ↔
          situation ≠ Situation.already_closed) ∧
        (destroy s reason situation).2.on_close_reason =
          (if situation = Situation.problem then some reason else none) ∧
        (destroy s reason situation).1.transport_open = false)) ∧
    (∀ reason2 situation2,
      destroy (destroy s reason situation).1 reason2 situation2 =
        ((destroy s reason situation).1, no_effects)) := by
  constructor
  · intro hopen
    unfold destroy
    rw [if_pos hopen]
    refine ⟨rfl, ?_, ?_, rfl⟩
    · cases situation <;> simp
    · cases situation <;> simp
  · intro reason2 situation2
    unfold destroy
    by_cases hopen : s.transport_open = true
    · rw [if_pos hopen]
      simp
    · rw [if_neg hopen]
      simp only
      rw [if_neg hopen]

/-- Witness for destroy_correct: a live connection with two pending waiters,
torn down in problem mode; a second call changes nothing. -/
theorem destroy_correct_witness :
    ((destroy { transport_open := true, pending_acks := [0, 1] } "boom"
        Situation.problem).2.rejected = [(0, "boom"), (1, "boom")] ∧
      (destroy { transport_open := true, pending_acks := [0, 1] } "boom"
        Situation.problem).2.on_close_reason = some "boom") ∧
    destroy (destroy { transport_open := true, pending_acks := [0, 1] } "boom"
        Situation.problem).1 "again" Situation.no_longer_required =
      ((destroy { transport_open := true, pending_acks := [0, 1] } "boom"
        Situation.problem).1, no_effects) := by
  have h := destroy_correct { transport_open := true, pending_acks := [0, 1] }
    "boom" Situation.problem
  refine ⟨⟨?_, ?_⟩, h.2 "again" Situation.no_longer_required⟩
  · rw [(h.1 rfl).1]
    rfl
  · rw [(h.1 rfl).2.2.1]
    rfl

/-- Claim C7: ECIES encryption derives a 256-bit AES key from the fresh
ephemeral keypair via ECDH, encrypts under the constant all-zero 96-bit IV,
and outputs the 133-byte raw ephemeral public key followed by the
ciphertext, so its length is 133 + plaintext length + 16 whenever AES-GCM
appends its 16-byte tag; decryption splits off exactly the first 133 bytes
as the ephemeral key and decrypts the rest with the rederived key. -/
theorem ecies_correct (derive_bits : Bytes → Bytes → Nat → Bytes)
    (aes_encrypt aes_decrypt : Bytes → Bytes → Bytes → Bytes)
    (ephemeral_public ephemeral_private plaintext public_key private_key : Bytes)
    (h_raw : ephemeral_public.length = 133)
    (h_tag : ∀ key iv plain, (aes_encrypt key iv plain).length = plain.length + 16) :
    nr_raw_key_bytes = 133 ∧
    ecies_iv.length = 12 ∧ (∀ b ∈ ecies_iv, b = 0) ∧
    ecies_encrypt derive_bits aes_encrypt ephemeral_public ephemeral_private
        plaintext public_key =
      ephemeral_public ++
        aes_encrypt (derive_bits ephemeral_private public_key 256)
          (List.replicate 12 0) plaintext ∧
    (ecies_encrypt derive_bits aes_encrypt ephemeral_public ephemeral_private
        plaintext public_key).length = 133 + plaintext.length + 16 ∧
    (ecies_encrypt derive_bits aes_encrypt ephemeral_public ephemeral_private
        plaintext public_key).take 133 = ephemeral_public ∧
    ecies_decrypt derive_bits aes_decrypt
        (ecies_encrypt derive_bits aes_encrypt ephemeral_public ephemeral_private
          plaintext public_key) private_key =
      aes_decrypt (derive_bits private_key ephemeral_public 256) ecies_iv
        (aes_encrypt (derive_bits ephemeral_private public_key 256) ecies_iv
          plaintext) := by
  have hkey : nr_raw_key_bytes = 133 := by norm_num [nr_raw_key_bytes, keysize]
  refine ⟨hkey, by simp [ecies_iv], ?_, rfl, ?_, ?_, ?_⟩
  · intro b hb
    exact List.eq_of_mem_replicate hb
  · simp [ecies_encrypt, h_raw, h_tag]
    omega
  · rw [ecies_encrypt]
    simp only [List.take_append_eq_append_take, h_raw]
    simp
    omega
  · rw [ecies_decrypt, ecies_encrypt, hkey]
    simp only [List.take_append_eq_append_take, List.drop_append_eq_append_drop,
      h_raw]
    rw [List.take_of_length_le (le_of_eq h_raw),
      List.drop_eq_nil_of_le (le_of_eq h_raw)]
    simp

/-- Witness for ecies_correct: a 133-byte ephemeral key, a toy key
derivation and a toy AES that appends a 16-byte tag. -/
theorem ecies_correct_witness :
    (List.replicate 133 (7 : Nat)).length = 133 ∧
    (ecies_encrypt (fun _ _ _ => List.replicate 32 0)
        (fun _ _ plain => plain ++ List.replicate 16 1)
        (List.replicate 133 7) [5] [1, 2, 3] [4]).length = 133 + 3 + 16 := by
  refine ⟨List.length_replicate 133 7, ?_⟩
  have h := ecies_correct (fun _ _ _ => List.replicate 32 0)
    (fun _ _ plain => plain ++ List.replicate 16 1)
    (fun _ _ c => c) (List.replicate 133 7) [5] [1, 2, 3] [4] []
    (List.length_replicate 133 7) (by intro k iv p; simp)
  exact h.2.2.2.2.1

/-- Claim C8: on an inbound Redirect the initiator's on_close fires with
reason "redirected" strictly before on_open fires for the new connection
(the trace splits around the on_close event, with no on_open anywhere at or
before it), the redirect context is forwarded as the new connection's
connection_info, and the target public key replaces the remote public
key. -/
theorem redirect_close_before_open (pending_acks : List Nat) (address : String)
    (public_key : Nat) (redirect_context : Option Nat) :
    (∃ before after,
      redirect_trace pending_acks address public_key redirect_context =
        before ++ RedirectEvent.on_close (some "redirected") :: after ∧
      RedirectEvent.on_open ∉ before ∧
      RedirectEvent.on_open ∈ after) ∧
    (on_redirect pending_acks address public_key redirect_context).1.connection_info =
      redirect_context ∧
    (on_redirect pending_acks address public_key
      redirect_context).1.remote_public_key = public_key := by
  refine ⟨⟨RedirectEvent.transport_close ::
    pending_acks.map RedirectEvent.waiter_rejected,
    [RedirectEvent.transport_connect address, RedirectEvent.hello_sent,
      RedirectEvent.on_open], ?_, ?_, ?_⟩, rfl, rfl⟩
  · simp [redirect_trace, on_redirect, new_connection_events, party_close_reason]
  · intro hmem
    rcases List.mem_cons.mp hmem with h | h
    · exact RedirectEvent.noConfusion h
    · obtain ⟨w, _, hw⟩ := List.mem_map.mp h
      exact RedirectEvent.noConfusion hw
  · simp

/-- Helper: consume returns immediately, touching nothing, while busy is set
or the transport connection is gone. -/
lemma consume_busy_noop (decode_id : Bytes → Option Identifier) (fuel : Nat)
    (s : ConsumerState) (h : s.busy = true ∨ s.transport_open = false) :
    consume decode_id fuel s = (s, ConsumeOutcome.waiting) := by
  cases fuel with
  | zero => rfl
  | succ fuel =>
    rw [consume]
    rw [if_pos (Or.symm h)]

/-- Helper: whenever consume starts a decryption, the state it leaves behind
has busy set. -/
lemma consume_decrypting_busy (decode_id : Bytes → Option Identifier) :
    ∀ fuel s s2 ciphertext,
      consume decode_id fuel s = (s2, ConsumeOutcome.decrypting ciphertext) →
      s2.busy = true := by
  intro fuel
  induction fuel with
  | zero =>
    intro s s2 c h
    rw [consume] at h
    exact absurd (congrArg Prod.snd h) (by simp)
  | succ fuel ih =>
    intro s s2 c h
    rw [consume] at h
    dsimp only at h
    repeat' split at h
    all_goals first
      | exact ih _ _ _ h
      | (rw [Prod.mk.injEq] at h
         rw [← h.1]
         all_goals exact absurd h.2 (by simp))

/-- Claim C9: while a decryption started by the consumer is pending (busy
set) or the transport connection is gone, every invocation of consume
returns immediately without taking bytes from the in-buffer (the state is
returned unchanged); any consume that starts a decryption leaves busy set,
so at most one decryption of in-buffer data is in flight at a time — every
further invocation is a no-op until the decryption completes; and each
completion handler resumes parsing via consume from the saved parse state
with busy cleared. -/
theorem consume_busy_discipline (decode_id : Bytes → Option Identifier)
    (fuel : Nat) (s : ConsumerState) :
    (s.busy = true ∨ s.transport_open = false →
      consume decode_id fuel s = (s, ConsumeOutcome.waiting)) ∧
    (∀ s2 ciphertext,
      consume decode_id fuel s = (s2, ConsumeOutcome.decrypting ciphertext) →
      s2.busy = true ∧
        ∀ fuel2, consume decode_id fuel2 s2 = (s2, ConsumeOutcome.waiting)) ∧
    (∀ plain, ∃ resumed,
      on_blob_decrypted decode_id fuel s plain = consume decode_id fuel resumed ∧
        resumed.busy = false ∧ resumed.buffer = s.buffer ∧
        resumed.identifier = s.identifier ∧
        resumed.identifier_length = s.identifier_length ∧
        resumed.blob_buffers = s.blob_buffers ++ [plain]) ∧
    (∀ identifier_buffer identifier,
      decode_id identifier_buffer = some identifier →
      ∃ resumed,
        on_identifier_decrypted decode_id fuel s identifier_buffer =
          consume decode_id fuel resumed ∧
          resumed.busy = false ∧ resumed.buffer = s.buffer ∧
          resumed.identifier = some identifier) := by
  refine ⟨consume_busy_noop decode_id fuel s, ?_, ?_, ?_⟩
  · intro s2 ciphertext h
    have hb := consume_decrypting_busy decode_id fuel s s2 ciphertext h
    exact ⟨hb, fun fuel2 => consume_busy_noop decode_id fuel2 s2 (Or.inl hb)⟩
  · intro plain
    exact ⟨_, rfl, rfl, rfl, rfl, rfl, rfl⟩
  · intro identifier_buffer identifier hdec
    refine ⟨{ s with identifier := some identifier, busy := false },
      ?_, rfl, rfl, rfl⟩
    rw [on_identifier_decrypted, hdec]

/-- Witness for consume_busy_discipline: a busy consumer is a no-op; a
consumer with five buffered bytes and a session key starts an identifier
decryption and is then a no-op; a blob completion resumes with busy
cleared. -/
theorem consume_busy_discipline_witness :
    (consume (fun _ => none) 5
        ⟨true, true, [1, 2], none, none, [], none, some 4⟩ =
      (⟨true, true, [1, 2], none, none, [], none, some 4⟩,
        ConsumeOutcome.waiting)) ∧
    ((⟨true, true, [], none, some 3, [], some 1, none⟩ : ConsumerState).busy =
        true ∧
      consume (fun _ => none) 7 ⟨true, true, [], none, some 3, [], some 1, none⟩ =
        (⟨true, true, [], none, some 3, [], some 1, none⟩,
          ConsumeOutcome.waiting)) ∧
    (∃ resumed,
      on_blob_decrypted (fun _ => none) 0
          ⟨true, true, [], some (Identifier.mk "Send" []), some 3, [], some 1, none⟩
          [8] =
        consume (fun _ => none) 0 resumed ∧ resumed.busy = false) := by
  have h := consume_busy_discipline (fun _ => none) 1
    ⟨true, false, [0, 3, 9, 9, 9], none, none, [], some 1, none⟩
  have hdec := h.2.1 ⟨true, true, [], none, some 3, [], some 1, none⟩ [9, 9, 9] rfl
  refine ⟨?_, ⟨hdec.1, hdec.2 7⟩, ?_⟩
  · exact (consume_busy_discipline (fun _ => none) 5
      ⟨true, true, [1, 2], none, none, [], none, some 4⟩).1 (Or.inl rfl)
  · obtain ⟨resumed, he, hb, _⟩ := (consume_busy_discipline (fun _ => none) 0
      ⟨true, true, [], some (Identifier.mk "Send" []), some 3, [],
        some 1, none⟩).2.2.1 [8]
    exact ⟨resumed, he, hb⟩

/-- Claim C10: while session_key is unset the consumer never consults the
identifier's type field — the dispatch result is the same for any two type
strings: a receiver (handshake_key unset) processes the record as a Hello
and an initiator (handshake_key set) as an AuthHello — and dispatch on the
type field happens exactly when session_key is set. -/
theorem handshake_ignores_type (handshake_key : Option Nat)
    (identifier_type other_type : String) (session_key : Nat) :
    (receive_dispatch none handshake_key identifier_type =
      receive_dispatch none handshake_key other_type) ∧
    (receive_dispatch none none identifier_type =
      ReceiveAction.respond_auth_hello) ∧
    (∀ k, receive_dispatch none (some k) identifier_type =
      ReceiveAction.process_auth_hello) ∧
    (receive_dispatch (some session_key) handshake_key "Redirect" =
      ReceiveAction.handle_redirect) ∧
    (receive_dispatch (some session_key) handshake_key "Send" =
      ReceiveAction.handle_send) ∧
    (receive_dispatch (some session_key) handshake_key "Acknowledge" =
      ReceiveAction.handle_acknowledge) ∧
    (receive_dispatch (some session_key) handshake_key "StatusSend" =
      ReceiveAction.handle_status_send) ∧
    (identifier_type ≠ "Redirect" → identifier_type ≠ "Send" →
      identifier_type ≠ "Acknowledge" → identifier_type ≠ "StatusSend" →
      receive_dispatch (some session_key) handshake_key identifier_type =
        ReceiveAction.destroy_unrecognized) := by
  refine ⟨?_, ?_, ?_, ?_, ?_, ?_, ?_, ?_⟩
  · cases handshake_key <;> simp [receive_dispatch]
  · simp [receive_dispatch]
  · intro k
    simp [receive_dispatch]
  · simp [receive_dispatch]
  · simp [receive_dispatch]
  · simp [receive_dispatch]
  · simp [receive_dispatch]
  · intro h1 h2 h3 h4
    simp [receive_dispatch, h1, h2, h3, h4]

/-- Witness for handshake_ignores_type at an unrecognized type string. -/
theorem handshake_ignores_type_witness :
    receive_dispatch (some 2) (some 1) "Bogus" =
      ReceiveAction.destroy_unrecognized :=
  (handshake_ignores_type (some 1) "Bogus" "Hello" 2).2.2.2.2.2.2.2
    (by decide) (by decide) (by decide) (by decide)

end WebSeif

